import Mathlib

/-!
Shallow embedding of `src/src/v/transform/transfer_queue.h` (Redpanda,
namespace `transform`): a single-producer single-consumer queue that
limits buffered entries by their reported memory usage.

Modelling choices, justified against the source:

* The element type `T` of the C++ template satisfies the `MemoryMeasurable`
  concept: it supplies a method `memory_usage()` returning `size_t`.  Each
  call site of `entry.memory_usage()` in the source (push line 68, pop_one
  line 91) is modelled as applying a function `μ : α → Nat` that represents
  what the method returns at that call.  An item whose reported size is
  stable over its lifetime corresponds to using one fixed `μ` at every call;
  an item whose reported size changes between insertion and removal is
  modelled by different functions at the two calls.

* `size_t` arithmetic on `_used_memory` wraps modulo `2 ^ 64`; the
  definitions `size_t_add` and `size_t_sub` make that explicit.

* The coroutine structure is modelled at quiescent points: each public
  operation's state transition is a pure function of the queue state and of
  the value `as->abort_requested()` takes at the operation's post-wait
  check.  Whether the internal `co_await` suspends at all is modelled
  separately by the `wait_for_free_memory_suspends` /
  `wait_for_non_empty_suspends` predicates, which take the abort state at
  call entry: `ss::abort_source::subscribe` returns a disengaged optional
  iff abort was already requested, and `ss::condition_variable::wait(pred)`
  does not suspend when `pred()` already holds.  `abort_requested()` is
  monotone: once true it stays true.

* All operations in the source are `noexcept` and contain no throwing
  statements of their own, so the model's operations are total functions
  (no error outcomes).
-/

namespace transform

/-- Wraparound bound for C++ `size_t` (64-bit). -/
def size_t_wrap : Nat := 2 ^ 64

/-- C++ `size_t` addition: wraps modulo `2 ^ 64` (used by `_used_memory += mem`). -/
def size_t_add (a b : Nat) : Nat := (a + b) % size_t_wrap

/-- C++ `size_t` subtraction: wraps modulo `2 ^ 64` (used by `_used_memory -= ...`). -/
def size_t_sub (a b : Nat) : Nat := (a + (size_t_wrap - b % size_t_wrap)) % size_t_wrap

/-- Half the `size_t` range.  When the soft limit is below this bound, the
`size_t` sum `_used_memory + needed_memory` of the wait predicate (line 130)
cannot wrap, because both operands stay at or below `_max_memory`. -/
def size_t_half : Nat := 2 ^ 63

/-- State of `transform::transfer_queue<T>` (transfer_queue.h lines 144-156):
the ordered buffer `_entries` (a `ss::chunked_fifo`, modelled as a list in
FIFO order, front = head), the fixed soft limit `_max_memory`, and the
running total `_used_memory`.  The condition variable carries no queue
state and is modelled by the separate wait/signal definitions below. -/
structure transfer_queue (α : Type) where
  _entries : List α
  _max_memory : Nat
  _used_memory : Nat
deriving Repr, DecidableEq

namespace transfer_queue

variable {α : Type}

/-- Constructor (lines 52-53): starts with an empty buffer, the given
`max_memory_usage` as `_max_memory`, and `_used_memory = 0` (line 156). -/
def mk_queue (max_memory_usage : Nat) : transfer_queue α :=
  { _entries := [], _max_memory := max_memory_usage, _used_memory := 0 }

/-- Effect of `push` (lines 64-76) given the value of `as->abort_requested()`
at the post-wait check (line 70).  `mem` is computed from `memory_usage()`
before the wait (line 68); on the non-aborted path the entry is appended at
the back of the buffer and `mem` is added to `_used_memory` (lines 73-74). -/
def push (q : transfer_queue α) (μ : α → Nat) (entry : α) (aborted : Bool) :
    transfer_queue α :=
  let mem := min (μ entry) q._max_memory
  if aborted then q
  else
    { q with
      _entries := q._entries ++ [entry]
      _used_memory := size_t_add q._used_memory mem }

/-- Effect of `pop_one` (lines 84-94) given `as->abort_requested()` at the
post-wait check (line 86).  On an empty buffer or abort it returns
`std::nullopt` and mutates nothing; otherwise it removes the front entry
and subtracts `min(entry.memory_usage(), _max_memory)` — with
`memory_usage()` re-invoked at this call (line 91) — from `_used_memory`. -/
def pop_one (q : transfer_queue α) (μ : α → Nat) (aborted : Bool) :
    Option α × transfer_queue α :=
  match q._entries with
  | [] => (none, q)
  | entry :: rest =>
    if aborted then (none, q)
    else
      (some entry,
        { q with
          _entries := rest
          _used_memory := size_t_sub q._used_memory (min (μ entry) q._max_memory) })

/-- Effect of `pop_all` (lines 102-111) given `as->abort_requested()` at the
post-wait check (line 105).  On abort it returns an empty container and
mutates nothing; otherwise `_used_memory` is reset to zero (line 108) and
the whole buffer is exchanged out and returned (line 110). -/
def pop_all (q : transfer_queue α) (aborted : Bool) :
    List α × transfer_queue α :=
  if aborted then ([], q)
  else (q._entries, { q with _entries := [], _used_memory := 0 })

/-- Effect of `clear` (lines 116-119): drop all entries and reset
`_used_memory` to zero. -/
def clear (q : transfer_queue α) : transfer_queue α :=
  { q with _entries := [], _used_memory := 0 }

/-- Predicate of the condition-variable wait in `wait_for_free_memory`
(lines 126-131): true when abort was requested or
`(_used_memory + needed_memory) <= _max_memory` (line 130).  The addition on
the left is performed in `size_t` and wraps modulo `2 ^ 64`. -/
def free_memory_ready (q : transfer_queue α) (aborted : Bool)
    (needed_memory : Nat) : Bool :=
  aborted || decide (size_t_add q._used_memory needed_memory ≤ q._max_memory)

/-- Predicate of the condition-variable wait in `wait_for_non_empty`
(lines 138-139): true when abort was requested or the buffer is non-empty. -/
def non_empty_ready (q : transfer_queue α) (aborted : Bool) : Bool :=
  aborted || !q._entries.isEmpty

/-- Result of `as->subscribe(...)` (lines 124 and 136): the returned
`std::optional<subscription>` is engaged iff abort has not already been
requested at subscription time. -/
def subscribe_engaged (aborted : Bool) : Bool := !aborted

/-- Whether the `co_await` in `wait_for_free_memory` (lines 122-133)
suspends, as a function of the abort state at call entry: the wait is
entered only when the subscription is engaged (line 125), and
`ss::condition_variable::wait(pred)` suspends only when the predicate does
not already hold. -/
def wait_for_free_memory_suspends (q : transfer_queue α) (aborted : Bool)
    (needed_memory : Nat) : Bool :=
  subscribe_engaged aborted && !free_memory_ready q aborted needed_memory

/-- Whether the `co_await` in `wait_for_non_empty` (lines 135-142) suspends,
as a function of the abort state at call entry. -/
def wait_for_non_empty_suspends (q : transfer_queue α) (aborted : Bool) : Bool :=
  subscribe_engaged aborted && !non_empty_ready q aborted

/-- Number of `_cond_var.signal()` calls performed by `push` (line 75: one
signal on the non-aborted path, none when the abort check returns early). -/
def push_signals (aborted : Bool) : Nat := if aborted then 0 else 1

/-- Number of `_cond_var.signal()` calls performed by `pop_one` (line 92:
one signal on the successful path only). -/
def pop_one_signals (q : transfer_queue α) (aborted : Bool) : Nat :=
  if aborted || q._entries.isEmpty then 0 else 1

/-- Number of `_cond_var.signal()` calls performed by `pop_all` (line 109:
one signal on the non-aborted path only). -/
def pop_all_signals (aborted : Bool) : Nat := if aborted then 0 else 1

/-- Number of `_cond_var.signal()` calls performed by `clear`: its body
(lines 116-119) contains no signal call. -/
def clear_signals : Nat := 0

/-- Whether `clear` can suspend: its body (lines 116-119) is a plain
synchronous function with no `co_await` and no `ss::abort_source`
parameter, so it never suspends and never consults a cancellation token. -/
def clear_suspends : Bool := false

/-- Capped charge of one entry: `min(entry.memory_usage(), _max_memory)`
as computed at lines 68 and 91. -/
def charge (μ : α → Nat) (max_memory : Nat) (entry : α) : Nat :=
  min (μ entry) max_memory

/-- Sum of the capped charges of a list of entries. -/
def charges (μ : α → Nat) (max_memory : Nat) : List α → Nat
  | [] => 0
  | entry :: rest => charge μ max_memory entry + charges μ max_memory rest

end transfer_queue

/-- One completed public operation on the queue, tagged with the value
`as->abort_requested()` takes at the operation's post-wait check (`clear`
takes no abort source). -/
inductive queue_op (α : Type) where
  | push (entry : α) (aborted : Bool)
  | pop_one (aborted : Bool)
  | pop_all (aborted : Bool)
  | clear
deriving Repr, DecidableEq

namespace transfer_queue

variable {α : Type}

/-- State transition of one completed operation. -/
def apply_op (μ : α → Nat) (q : transfer_queue α) : queue_op α → transfer_queue α
  | .push entry aborted => q.push μ entry aborted
  | .pop_one aborted => (q.pop_one μ aborted).2
  | .pop_all aborted => (q.pop_all aborted).2
  | .clear => q.clear

/-- State after running a sequence of completed operations in order. -/
def run_ops (μ : α → Nat) (q : transfer_queue α) : List (queue_op α) → transfer_queue α
  | [] => q
  | o :: os => run_ops μ (apply_op μ q o) os

/-- A sequence of operations can run to completion from `q`: every push that
completes non-aborted passed the wait predicate of `wait_for_free_memory`
(line 130) with its abort branch false, i.e. the wrapping `size_t` sum
`_used_memory + mem` was at most `_max_memory` at its admission point.
Aborted operations and pops need no side condition here: their completed
effect is defined regardless. -/
def ops_admissible (μ : α → Nat) (q : transfer_queue α) : List (queue_op α) → Bool
  | [] => true
  | o :: os =>
    (match o with
     | .push entry false => free_memory_ready q false (charge μ q._max_memory entry)
     | _ => true)
      && ops_admissible μ (apply_op μ q o) os

/-- Unwrapped size_t addition below the wrap bound. -/
theorem size_t_add_eq {a b : Nat} (h : a + b < size_t_wrap) :
    size_t_add a b = a + b := Nat.mod_eq_of_lt h

/-- Unwrapped size_t subtraction when no underflow occurs. -/
theorem size_t_sub_eq {a b : Nat} (hba : b ≤ a) (ha : a < size_t_wrap) :
    size_t_sub a b = a - b := by
  unfold size_t_sub
  have hb : b % size_t_wrap = b := Nat.mod_eq_of_lt (lt_of_le_of_lt hba ha)
  rw [hb]
  have hbw : b ≤ size_t_wrap := le_of_lt (lt_of_le_of_lt hba ha)
  have : a + (size_t_wrap - b) = (a - b) + size_t_wrap := by omega
  rw [this, Nat.add_mod_right]
  exact Nat.mod_eq_of_lt (by omega)

/-- Charges of an appended entry add at the tail. -/
theorem charges_append (μ : α → Nat) (m : Nat) (l : List α) (e : α) :
    charges μ m (l ++ [e]) = charges μ m l + charge μ m e := by
  induction l with
  | nil => simp [charges]
  | cons x xs ih => simp [charges, ih]; omega

/-- Memory-accounting invariant: `_used_memory` equals the sum of the capped
charges of the buffered entries, and stays within the soft limit. -/
def mem_inv (μ : α → Nat) (q : transfer_queue α) : Prop :=
  q._used_memory = charges μ q._max_memory q._entries
    ∧ q._used_memory ≤ q._max_memory

/-- One admissible completed operation preserves the accounting invariant
and leaves `_max_memory` unchanged, provided the soft limit is below half
the `size_t` range: then both operands of the wait predicate's wrapping sum
are at most `_max_memory < 2 ^ 63`, the sum cannot wrap, and admission
implies the exact bound `_used_memory + mem <= _max_memory`. -/
theorem apply_op_inv (μ : α → Nat) (q : transfer_queue α) (o : queue_op α)
    (hW : q._max_memory < size_t_half) (hinv : mem_inv μ q)
    (hadm : (match o with
             | .push entry false => free_memory_ready q false (charge μ q._max_memory entry)
             | _ => true) = true) :
    mem_inv μ (apply_op μ q o) ∧ (apply_op μ q o)._max_memory = q._max_memory := by
  obtain ⟨ents, maxm, used⟩ := q
  obtain ⟨hsum, hle⟩ := hinv
  have hhalf : size_t_half + size_t_half = size_t_wrap := by decide
  have hWm : maxm < size_t_half := hW
  have hW' : maxm < size_t_wrap := by omega
  have hsum' : used = charges μ maxm ents := hsum
  have hle' : used ≤ maxm := hle
  cases o with
  | push entry aborted =>
    cases aborted with
    | true => exact ⟨⟨hsum, hle⟩, rfl⟩
    | false =>
      have hadm2 : size_t_add used (min (μ entry) maxm) ≤ maxm := by
        have h2 : free_memory_ready (⟨ents, maxm, used⟩ : transfer_queue α) false
            (charge μ maxm entry) = true := hadm
        simpa [free_memory_ready, charge] using h2
      have hminle : min (μ entry) maxm ≤ maxm := min_le_right _ _
      have hwr : used + min (μ entry) maxm < size_t_wrap := by omega
      have hadm' : used + min (μ entry) maxm ≤ maxm := by
        rw [size_t_add_eq hwr] at hadm2
        exact hadm2
      refine ⟨⟨?_, ?_⟩, rfl⟩
      · show size_t_add used (min (μ entry) maxm) = charges μ maxm (ents ++ [entry])
        rw [size_t_add_eq hwr, charges_append, hsum', charge]
      · show size_t_add used (min (μ entry) maxm) ≤ maxm
        rw [size_t_add_eq hwr]
        exact hadm'
  | pop_one aborted =>
    cases ents with
    | nil => exact ⟨⟨hsum, hle⟩, rfl⟩
    | cons e rest =>
      cases aborted with
      | true => exact ⟨⟨hsum, hle⟩, rfl⟩
      | false =>
        have hsum2 : used = min (μ e) maxm + charges μ maxm rest := by
          simpa [charges, charge] using hsum'
        have hchg : min (μ e) maxm ≤ used := by omega
        have hlt : used < size_t_wrap := lt_of_le_of_lt hle' hW'
        refine ⟨⟨?_, ?_⟩, rfl⟩
        · show size_t_sub used (min (μ e) maxm) = charges μ maxm rest
          rw [size_t_sub_eq hchg hlt]
          omega
        · show size_t_sub used (min (μ e) maxm) ≤ maxm
          rw [size_t_sub_eq hchg hlt]
          omega
  | pop_all aborted =>
    cases aborted with
    | true => exact ⟨⟨hsum, hle⟩, rfl⟩
    | false => exact ⟨⟨rfl, Nat.zero_le _⟩, rfl⟩
  | clear => exact ⟨⟨rfl, Nat.zero_le _⟩, rfl⟩

/-- Running any admissible sequence of completed operations preserves the
accounting invariant and the soft limit, provided the soft limit is below
half the `size_t` range (so the wait predicate's sum never wraps). -/
theorem run_ops_inv (μ : α → Nat) (ops : List (queue_op α)) :
    ∀ q : transfer_queue α, q._max_memory < size_t_half → mem_inv μ q →
      ops_admissible μ q ops = true →
      mem_inv μ (run_ops μ q ops) ∧ (run_ops μ q ops)._max_memory = q._max_memory := by
  induction ops with
  | nil => intro q _ hinv _; exact ⟨hinv, rfl⟩
  | cons o os ih =>
    intro q hW hinv hadm
    simp only [ops_admissible, Bool.and_eq_true] at hadm
    obtain ⟨h1, h2⟩ := hadm
    obtain ⟨hinv', hmax'⟩ := apply_op_inv μ q o hW hinv h1
    have hW' : (apply_op μ q o)._max_memory < size_t_half := by rw [hmax']; exact hW
    obtain ⟨hfini, hfinm⟩ := ih (apply_op μ q o) hW' hinv' h2
    exact ⟨hfini, by rw [run_ops, hfinm, hmax']⟩

/-- Repeated `pop_one` with no abort until the buffer is empty, collecting the
returned items in order.  The fuel argument bounds the number of calls; with
fuel at least the buffer length the loop runs until the buffer empties.  This
is the reference consumer loop that `pop_all` is compared against. -/
def drain_by_pop_one (μ : α → Nat) : Nat → transfer_queue α → List α × transfer_queue α
  | 0, q => ([], q)
  | fuel + 1, q =>
    if q._entries.isEmpty then ([], q)
    else
      match pop_one q μ false with
      | (none, q2) => ([], q2)
      | (some entry, q2) =>
        let r := drain_by_pop_one μ fuel q2
        (entry :: r.1, r.2)

/-- Draining a buffer of known contents by repeated `pop_one` returns exactly
those contents in order and zeroes the accounted memory. -/
theorem drain_by_pop_one_spec (μ : α → Nat) :
    ∀ (l : List α) (maxm used : Nat), maxm < size_t_wrap →
      used = charges μ maxm l → used ≤ maxm →
      drain_by_pop_one μ l.length ⟨l, maxm, used⟩ = (l, ⟨[], maxm, 0⟩) := by
  intro l
  induction l with
  | nil =>
    intro maxm used _ hsum _
    have h0 : used = 0 := hsum
    subst h0
    rfl
  | cons e rest ih =>
    intro maxm used hW hsum hle
    have hsum' : used = min (μ e) maxm + charges μ maxm rest := by
      simpa [charges, charge] using hsum
    have hchg : min (μ e) maxm ≤ used := by omega
    have hlt : used < size_t_wrap := lt_of_le_of_lt hle hW
    have hused2 : size_t_sub used (min (μ e) maxm) = charges μ maxm rest := by
      rw [size_t_sub_eq hchg hlt]
      omega
    have hle2 : charges μ maxm rest ≤ maxm := by omega
    have hstep : drain_by_pop_one μ ((e :: rest).length) ⟨e :: rest, maxm, used⟩
        = (e :: (drain_by_pop_one μ rest.length
               ⟨rest, maxm, size_t_sub used (min (μ e) maxm)⟩).1,
           (drain_by_pop_one μ rest.length
               ⟨rest, maxm, size_t_sub used (min (μ e) maxm)⟩).2) := rfl
    rw [hstep, hused2, ih maxm (charges μ maxm rest) hW rfl hle2]

/-- C1 counterexample: with `_max_memory = 2^63` and two stable items each
reporting `2^63` bytes, the wrapping `size_t` comparison at line 130 admits
the second push — `(2^63 + 2^63) mod 2^64 = 0 <= 2^63` — so the trace runs
to completion, but at its quiescent end `_used_memory` has wrapped to `0`
while the buffered charges sum to `2^64`: the claimed equality fails on a
real completed trace. -/
theorem used_memory_sum_overflow_counterexample :
    ops_admissible id (mk_queue (2 ^ 63))
        [queue_op.push (2 ^ 63) false, queue_op.push (2 ^ 63) false] = true
    ∧ (run_ops id (mk_queue (2 ^ 63))
        [queue_op.push (2 ^ 63) false, queue_op.push (2 ^ 63) false])._used_memory
      ≠ charges id
          (run_ops id (mk_queue (2 ^ 63))
            [queue_op.push (2 ^ 63) false, queue_op.push (2 ^ 63) false])._max_memory
          (run_ops id (mk_queue (2 ^ 63))
            [queue_op.push (2 ^ 63) false, queue_op.push (2 ^ 63) false])._entries :=
  ⟨by decide, by decide⟩

/-- C1 (amended): for every sequence of completed push, pop_one, pop_all and
clear operations (single producer, single consumer, one fixed memory_usage
function, i.e. every item's reported size stable over its lifetime), and
provided the soft limit is below `2^63` so the `size_t` sum in the line-130
wait predicate cannot wrap, at every quiescent point the queue's
`_used_memory` equals the sum over the buffered items of
`min(item.memory_usage(), _max_memory)`.  Quiescent points are exactly the
states `run_ops` reaches after admissible prefixes, and every prefix of an
admissible trace is admissible, so quantifying over all admissible traces
covers every quiescent point.  For `_max_memory >= 2^63` the equality fails,
see the counterexample above. -/
theorem used_memory_eq_sum_of_charges (μ : α → Nat) (max_memory : Nat)
    (ops : List (queue_op α)) (hW : max_memory < size_t_half)
    (hadm : ops_admissible μ (mk_queue max_memory) ops = true) :
    (run_ops μ (mk_queue max_memory) ops)._used_memory
      = charges μ (run_ops μ (mk_queue max_memory) ops)._max_memory
          (run_ops μ (mk_queue max_memory) ops)._entries := by
  have h0 : mem_inv μ (mk_queue max_memory (α := α)) := ⟨rfl, Nat.zero_le _⟩
  exact (run_ops_inv μ ops (mk_queue max_memory) hW h0 hadm).1.1

/-- Witness for C1 on a concrete admissible trace. -/
theorem used_memory_eq_sum_of_charges_witness :
    ((100 : Nat) < size_t_half
      ∧ ops_admissible id (mk_queue 100)
          [queue_op.push 40 false, queue_op.push 50 false, queue_op.pop_one false,
           queue_op.push 30 false, queue_op.pop_all false, queue_op.push 200 false]
          = true)
    ∧ (run_ops id (mk_queue 100)
          [queue_op.push 40 false, queue_op.push 50 false, queue_op.pop_one false,
           queue_op.push 30 false, queue_op.pop_all false, queue_op.push 200 false])._used_memory
        = charges id
            (run_ops id (mk_queue 100)
              [queue_op.push 40 false, queue_op.push 50 false, queue_op.pop_one false,
               queue_op.push 30 false, queue_op.pop_all false, queue_op.push 200 false])._max_memory
            (run_ops id (mk_queue 100)
              [queue_op.push 40 false, queue_op.push 50 false, queue_op.pop_one false,
               queue_op.push 30 false, queue_op.pop_all false, queue_op.push 200 false])._entries :=
  ⟨⟨by decide, by decide⟩,
    used_memory_eq_sum_of_charges id 100
      [queue_op.push 40 false, queue_op.push 50 false, queue_op.pop_one false,
       queue_op.push 30 false, queue_op.pop_all false, queue_op.push 200 false]
      (by decide) (by decide)⟩

/-- C9 counterexample: with `_max_memory = 2^64 - 2`, stable pushes of sizes
`2^64 - 2`, `2^63` and `2^63 - 1` are all admitted by the wrapping line-130
predicate (the second one only because its `size_t` sum wraps to
`2^63 - 2`), and then popping the first item wraps `_used_memory` up to
`2^64 - 1 > _max_memory` at a quiescent point: the claimed bound fails on a
real completed trace. -/
theorem used_memory_exceeds_max_counterexample :
    ops_admissible id (mk_queue (2 ^ 64 - 2))
        [queue_op.push (2 ^ 64 - 2) false, queue_op.push (2 ^ 63) false,
         queue_op.push (2 ^ 63 - 1) false, queue_op.pop_one false] = true
    ∧ ¬ (run_ops id (mk_queue (2 ^ 64 - 2))
          [queue_op.push (2 ^ 64 - 2) false, queue_op.push (2 ^ 63) false,
           queue_op.push (2 ^ 63 - 1) false, queue_op.pop_one false])._used_memory
        ≤ 2 ^ 64 - 2 :=
  ⟨by decide, by decide⟩

/-- C9 (amended): along every admissible trace (single producer, single
consumer, stable sizes), and provided the soft limit is below `2^63` so the
`size_t` sum in the line-130 wait predicate cannot wrap, `_used_memory`
never exceeds `_max_memory` at a quiescent point: each non-aborted push
passed the wait predicate `_used_memory + mem <= _max_memory` (the
empty-queue case is the instance with `_used_memory = 0` and the charge
capped at `_max_memory`), and every removal only decreases `_used_memory`.
For `_max_memory >= 2^63` the bound fails, see the counterexample above. -/
theorem used_memory_le_max_memory (μ : α → Nat) (max_memory : Nat)
    (ops : List (queue_op α)) (hW : max_memory < size_t_half)
    (hadm : ops_admissible μ (mk_queue max_memory) ops = true) :
    (run_ops μ (mk_queue max_memory) ops)._used_memory ≤ max_memory := by
  have h0 : mem_inv μ (mk_queue max_memory (α := α)) := ⟨rfl, Nat.zero_le _⟩
  obtain ⟨⟨_, hle⟩, hmax⟩ := run_ops_inv μ ops (mk_queue max_memory) hW h0 hadm
  exact le_trans hle (le_of_eq hmax)

/-- Witness for C9 on a concrete admissible trace ending right at the limit. -/
theorem used_memory_le_max_memory_witness :
    ((100 : Nat) < size_t_half
      ∧ ops_admissible id (mk_queue 100)
          [queue_op.push 60 false, queue_op.push 40 false, queue_op.pop_one true,
           queue_op.pop_all false, queue_op.push 500 false] = true)
    ∧ (run_ops id (mk_queue 100)
          [queue_op.push 60 false, queue_op.push 40 false, queue_op.pop_one true,
           queue_op.pop_all false, queue_op.push 500 false])._used_memory ≤ 100 :=
  ⟨⟨by decide, by decide⟩,
    used_memory_le_max_memory id 100
      [queue_op.push 60 false, queue_op.push 40 false, queue_op.pop_one true,
       queue_op.pop_all false, queue_op.push 500 false]
      (by decide) (by decide)⟩

/-- C2: pushing any item — also one whose reported size exceeds
`_max_memory` — into an empty queue with no abort fired completes without
suspending: the wait predicate of `wait_for_free_memory` holds immediately,
the item is appended, and its capped charge becomes `_used_memory`.  The
hypothesis `hsum` is the accounting invariant, which forces
`_used_memory = 0` on an empty buffer. -/
theorem push_into_empty_queue_no_suspend (μ : α → Nat) (q : transfer_queue α)
    (entry : α) (hW : q._max_memory < size_t_wrap)
    (hempty : q._entries = [])
    (hsum : q._used_memory = charges μ q._max_memory q._entries) :
    free_memory_ready q false (min (μ entry) q._max_memory) = true
    ∧ wait_for_free_memory_suspends q false (min (μ entry) q._max_memory) = false
    ∧ push q μ entry false
        = { _entries := [entry], _max_memory := q._max_memory,
            _used_memory := min (μ entry) q._max_memory } := by
  obtain ⟨ents, maxm, used⟩ := q
  have hW' : maxm < size_t_wrap := hW
  have he : ents = [] := hempty
  subst he
  have h0 : used = 0 := hsum
  subst h0
  have hlt2 : 0 + min (μ entry) maxm < size_t_wrap := by omega
  have hadd : size_t_add 0 (min (μ entry) maxm) = min (μ entry) maxm := by
    unfold size_t_add
    rw [Nat.mod_eq_of_lt hlt2]
    omega
  have hready : free_memory_ready (⟨[], maxm, 0⟩ : transfer_queue α) false
      (min (μ entry) maxm) = true := by
    show (false || decide (size_t_add 0 (min (μ entry) maxm) ≤ maxm)) = true
    rw [hadd]
    simp only [Bool.false_or]
    exact decide_eq_true (min_le_right _ _)
  refine ⟨hready, ?_, ?_⟩
  · show (subscribe_engaged false
        && !free_memory_ready (⟨[], maxm, 0⟩ : transfer_queue α) false
              (min (μ entry) maxm)) = false
    rw [hready]
    rfl
  · show (⟨[] ++ [entry], maxm, size_t_add 0 (min (μ entry) maxm)⟩ : transfer_queue α)
        = ⟨[entry], maxm, min (μ entry) maxm⟩
    rw [hadd]
    rfl

/-- Witness for C2: an item of size 1000 enters an empty queue with limit 10. -/
theorem push_into_empty_queue_no_suspend_witness :
    ((10 : Nat) < size_t_wrap
      ∧ (mk_queue 10 : transfer_queue Nat)._entries = []
      ∧ (mk_queue 10 : transfer_queue Nat)._used_memory
          = charges id (mk_queue 10 : transfer_queue Nat)._max_memory
              (mk_queue 10 : transfer_queue Nat)._entries)
    ∧ (free_memory_ready (mk_queue 10 : transfer_queue Nat) false
          (min (id 1000) (mk_queue 10 : transfer_queue Nat)._max_memory) = true
       ∧ wait_for_free_memory_suspends (mk_queue 10 : transfer_queue Nat) false
          (min (id 1000) (mk_queue 10 : transfer_queue Nat)._max_memory) = false
       ∧ push (mk_queue 10 : transfer_queue Nat) id 1000 false
          = { _entries := [1000], _max_memory := (mk_queue 10 : transfer_queue Nat)._max_memory,
              _used_memory := min (id 1000) (mk_queue 10 : transfer_queue Nat)._max_memory }) :=
  ⟨⟨by decide, rfl, rfl⟩,
    push_into_empty_queue_no_suspend id (mk_queue 10) 1000 (by decide) rfl rfl⟩

/-- C4: if abort has fired by the time an operation runs its post-wait
check, the operation completes with its cancelled result (push drops the
item, pop_one returns none, pop_all returns an empty container), mutates
neither the buffer nor `_used_memory`, and — all paths being total and
`noexcept` — raises no error. -/
theorem abort_at_postwait_check_noop (q : transfer_queue α) (μ : α → Nat)
    (entry : α) :
    push q μ entry true = q
    ∧ pop_one q μ true = (none, q)
    ∧ pop_all q true = ([], q) := by
  obtain ⟨ents, maxm, used⟩ := q
  refine ⟨rfl, ?_, rfl⟩
  cases ents with
  | nil => rfl
  | cons e rest => rfl

/-- C5: a token already fired before the call makes `subscribe` return a
disengaged optional, so the condition-variable wait is skipped entirely
(no suspension), and — abort being monotone, it is still fired at the
post-wait check — every operation returns its cancelled result with no
mutation. -/
theorem prefired_abort_skips_wait (q : transfer_queue α) (μ : α → Nat)
    (entry : α) (needed_memory : Nat) :
    subscribe_engaged true = false
    ∧ wait_for_free_memory_suspends q true needed_memory = false
    ∧ wait_for_non_empty_suspends q true = false
    ∧ push q μ entry true = q
    ∧ pop_one q μ true = (none, q)
    ∧ pop_all q true = ([], q) := by
  obtain ⟨ents, maxm, used⟩ := q
  refine ⟨rfl, rfl, rfl, rfl, ?_, rfl⟩
  cases ents with
  | nil => rfl
  | cons e rest => rfl

/-- C6: a single non-aborted `pop_all` on a queue holding X, Y, Z pushed in
that order returns exactly [X, Y, Z] in insertion order and leaves the
buffer empty with `_used_memory = 0`; and on any queue with a non-empty
buffer a non-aborted `pop_all` never returns an empty sequence. -/
theorem pop_all_returns_in_order (max_memory : Nat) (μ : α → Nat) (x y z : α) :
    pop_all (push (push (push (mk_queue max_memory) μ x false) μ y false) μ z false) false
      = ([x, y, z],
         { _entries := [], _max_memory := max_memory, _used_memory := 0 })
    ∧ (∀ q : transfer_queue α, q._entries ≠ [] → (pop_all q false).1 ≠ []) := by
  constructor
  · rfl
  · intro q hne
    obtain ⟨ents, maxm, used⟩ := q
    exact hne

/-- Witness for C6 at concrete inputs, discharging the non-empty hypothesis
of the second conjunct. -/
theorem pop_all_returns_in_order_witness :
    ((⟨[7], 10, 7⟩ : transfer_queue Nat)._entries ≠ []
      ∧ (pop_all (⟨[7], 10, 7⟩ : transfer_queue Nat) false).1 ≠ [])
    ∧ pop_all (push (push (push (mk_queue 100) id 1 false) id 2 false) id 3 false) false
        = ([1, 2, 3], ({ _entries := [], _max_memory := 100, _used_memory := 0 }
            : transfer_queue Nat)) :=
  ⟨⟨by decide, (pop_all_returns_in_order 100 id 1 2 3).2 ⟨[7], 10, 7⟩ (by decide)⟩,
    (pop_all_returns_in_order 100 id 1 2 3).1⟩

/-- C7: FIFO order.  Items a, b, c pushed in that order (no abort, no racing
consumer) are returned by successive non-aborted `pop_one` calls in the
order a, b, c; in general push appends at the back of the buffer and
pop_one removes the front entry. -/
theorem fifo_order (max_memory : Nat) (μ : α → Nat) (a b c : α) :
    ((pop_one (push (push (push (mk_queue max_memory) μ a false) μ b false) μ c false)
        μ false).1 = some a
      ∧ (pop_one (pop_one (push (push (push (mk_queue max_memory) μ a false) μ b false)
          μ c false) μ false).2 μ false).1 = some b
      ∧ (pop_one (pop_one (pop_one (push (push (push (mk_queue max_memory) μ a false)
          μ b false) μ c false) μ false).2 μ false).2 μ false).1 = some c)
    ∧ (∀ (q : transfer_queue α) (entry : α),
        (push q μ entry false)._entries = q._entries ++ [entry])
    ∧ (∀ q : transfer_queue α, (pop_one q μ false).1 = q._entries.head?) := by
  refine ⟨⟨rfl, rfl, rfl⟩, fun q entry => rfl, ?_⟩
  intro q
  obtain ⟨ents, maxm, used⟩ := q
  cases ents with
  | nil => rfl
  | cons e rest => rfl

/-- C8: `clear` empties the buffer and zeroes `_used_memory` from any state,
is synchronous (no co_await, no abort_source parameter), and performs no
`_cond_var.signal()` call. -/
theorem clear_resets (q : transfer_queue α) :
    clear q = { _entries := [], _max_memory := q._max_memory, _used_memory := 0 }
    ∧ clear_signals = 0
    ∧ clear_suspends = false :=
  ⟨rfl, rfl, rfl⟩

/-- C3 counterexample: push an item into a queue with `_max_memory = 100`
while its `memory_usage()` reports 10 (insertion charge `min 10 100 = 10`),
and pop it while its `memory_usage()` reports 3.  The source (line 91)
subtracts the freshly recomputed `min(entry.memory_usage(), _max_memory)
= 3`, not the insertion charge 10: `_used_memory` goes from 10 to 7, so the
amount subtracted differs from the charge recorded at insertion, refuting
the claim that the insertion-time charge is reused. -/
theorem pop_one_charge_recomputed_counterexample :
    (push (mk_queue 100) (fun _ => 10) (0 : Nat) false)._used_memory = 10
    ∧ (pop_one (push (mk_queue 100) (fun _ => 10) (0 : Nat) false)
        (fun _ => 3) false).2._used_memory = 7
    ∧ (push (mk_queue 100) (fun _ => 10) (0 : Nat) false)._used_memory
        - (pop_one (push (mk_queue 100) (fun _ => 10) (0 : Nat) false)
            (fun _ => 3) false).2._used_memory
      ≠ charge (fun _ => 10) 100 (0 : Nat) := by
  refine ⟨by decide, by decide, by decide⟩

/-- C3 (amended): the amount `pop_one` subtracts from `_used_memory` is
`min(entry.memory_usage(), _max_memory)` computed freshly at removal time
(line 91).  When the item's reported size is stable over its lifetime this
equals the charge computed at insertion, so accounting is self-consistent
only under that stability assumption. -/
theorem pop_one_subtracts_fresh_charge (q : transfer_queue α)
    (μ_pop : α → Nat) (entry : α) (rest : List α)
    (h : q._entries = entry :: rest) :
    (pop_one q μ_pop false).1 = some entry
    ∧ (pop_one q μ_pop false).2._used_memory
        = size_t_sub q._used_memory (min (μ_pop entry) q._max_memory) := by
  obtain ⟨ents, maxm, used⟩ := q
  have h' : ents = entry :: rest := h
  subst h'
  exact ⟨rfl, rfl⟩

/-- Witness for the amended C3 at a concrete queue. -/
theorem pop_one_subtracts_fresh_charge_witness :
    ((⟨[5], 100, 5⟩ : transfer_queue Nat)._entries = 5 :: [])
    ∧ ((pop_one (⟨[5], 100, 5⟩ : transfer_queue Nat) id false).1 = some 5
       ∧ (pop_one (⟨[5], 100, 5⟩ : transfer_queue Nat) id false).2._used_memory
           = size_t_sub 5 (min (id 5) 100)) :=
  ⟨rfl, pop_one_subtracts_fresh_charge ⟨[5], 100, 5⟩ id 5 [] rfl⟩

/-- C10: on a non-empty queue satisfying the accounting invariant (one fixed
memory_usage function, i.e. stable sizes), a single non-aborted `pop_all`
returns the same items in the same order, and reaches the same final state
(empty buffer, `_used_memory = 0`), as calling `pop_one` repeatedly until
the buffer is empty. -/
theorem pop_all_refines_pop_one_drain (μ : α → Nat) (q : transfer_queue α)
    (hne : q._entries ≠ [])
    (hW : q._max_memory < size_t_wrap)
    (hsum : q._used_memory = charges μ q._max_memory q._entries)
    (hle : q._used_memory ≤ q._max_memory) :
    pop_all q false = drain_by_pop_one μ q._entries.length q
    ∧ (pop_all q false).2._entries = []
    ∧ (pop_all q false).2._used_memory = 0 := by
  obtain ⟨ents, maxm, used⟩ := q
  have hW' : maxm < size_t_wrap := hW
  have hsum' : used = charges μ maxm ents := hsum
  have hle' : used ≤ maxm := hle
  have hdrain := drain_by_pop_one_spec μ ents maxm used hW' hsum' hle'
  refine ⟨?_, rfl, rfl⟩
  show (ents, (⟨[], maxm, 0⟩ : transfer_queue α)) = drain_by_pop_one μ ents.length ⟨ents, maxm, used⟩
  rw [hdrain]

/-- Witness for C10 at a concrete two-item queue. -/
theorem pop_all_refines_pop_one_drain_witness :
    ((⟨[1, 2], 100, 3⟩ : transfer_queue Nat)._entries ≠ []
      ∧ (100 : Nat) < size_t_wrap
      ∧ (3 : Nat) = charges id 100 [1, 2]
      ∧ (3 : Nat) ≤ 100)
    ∧ (pop_all (⟨[1, 2], 100, 3⟩ : transfer_queue Nat) false
         = drain_by_pop_one id (⟨[1, 2], 100, 3⟩ : transfer_queue Nat)._entries.length
             ⟨[1, 2], 100, 3⟩
       ∧ (pop_all (⟨[1, 2], 100, 3⟩ : transfer_queue Nat) false).2._entries = []
       ∧ (pop_all (⟨[1, 2], 100, 3⟩ : transfer_queue Nat) false).2._used_memory = 0) :=
  ⟨⟨by decide, by decide, by decide, by decide⟩,
    pop_all_refines_pop_one_drain id ⟨[1, 2], 100, 3⟩
      (by decide) (by decide) (by decide) (by decide)⟩

end transfer_queue

end transform
